import Mathlib

/-!
Shallow embedding of the pikcio-tokens accounting core
(pikciotokens/base.py and pikciotokens/events.py).

Python dictionaries are modelled as association lists over String keys
(lookup returns the first occurrence, as in a dict with unique keys);
Python int is Int; a raised exception is an Except.error carrying an Err
value.  Every mutating operation returns the dictionary state reached at
the moment it returns or raises, paired with its outcome, which mirrors
in-place mutation of the raw dict.  Event emission (events.transfer and
friends inside base.py) only hands a record to the logging sink and never
touches the ledgers, so the orchestration functions model the emission as
a no-op; the event registrar itself (events.py) is modelled separately
for the claims about it.
-/

/-- Lookup in a Python dict modelled as an association list. -/
def dictGet {β : Type} : List (String × β) → String → Option β
  | [], _ => none
  | (k, w) :: rest, key => if k = key then some w else dictGet rest key

/-- Python dct.get(key, dflt). -/
def dictGetD {β : Type} (d : List (String × β)) (key : String) (dflt : β) : β :=
  (dictGet d key).getD dflt

/-- Python dct[key] = v: replace the entry if the key is present, append a new
entry otherwise. -/
def dictSet {β : Type} : List (String × β) → String → β → List (String × β)
  | [], key, v => [(key, v)]
  | (k, w) :: rest, key, v =>
    if k = key then (k, v) :: rest else (k, w) :: dictSet rest key v

/-- Python del dct[key].  Callers of this model always check presence first
(delete_entry_if_falsy reads dct[key] before deleting), so the absent case is
a no-op here. -/
def dictDel {β : Type} : List (String × β) → String → List (String × β)
  | [], _ => []
  | (k, w) :: rest, key => if k = key then rest else (k, w) :: dictDel rest key

/-- Exceptions raised by the core. -/
inductive Err where
  /-- ValueError raised by assert_positive_amount. -/
  | invalidAmount (amount : Int)
  /-- ValueError raised by Balances.require. -/
  | insufficientFunds (account : String) (balance amount : Int)
  /-- ValueError raised by Allowances.require. -/
  | insufficientAllowance (account delegate : String) (amount : Int)
  /-- Python KeyError: missing dict key, or set.remove of a missing element.
  The payload records the relevant key name. -/
  | keyError (key : String)
  /-- Python AttributeError: reading an attribute that was never assigned. -/
  | attributeError (attr : String)
  /-- LookupError raised by calling an event that has been unregistered. -/
  | lookupError (eventName : String)
  /-- ValueError raised when event kwargs do not match the declared schema. -/
  | schemaMismatch (eventName : String)
  deriving Repr, DecidableEq

/-- delete_entry_if_falsy(dct, key): delete the entry at key if its value is
falsy (0 for ints, empty for dicts).  It reads dct[key] first, so it raises
KeyError when the key is absent. -/
def delete_entry_if_falsy {β : Type} (falsy : β → Bool) (dct : List (String × β))
    (key : String) : List (String × β) × Except Err Unit :=
  match dictGet dct key with
  | none => (dct, Except.error (Err.keyError key))
  | some v => (if falsy v then dictDel dct key else dct, Except.ok ())

/-- The raw balance mapping account -> amount. -/
abbrev BalDict := List (String × Int)

/-- Balances.get: the stored amount, or the policy default (0 when
missing_means_zero, the None sentinel otherwise) for a missing account.
pol is the missing_means_zero flag resolved in the constructor. -/
def Balances.get (pol : Bool) (b : BalDict) (account : String) : Option Int :=
  match dictGet b account with
  | some v => some v
  | none => if pol then some 0 else none

/-- Balances.deposit.  The first check is assert_positive_amount; then
self.balance[account] = self.balance.get(account, 0) + amount, and the new
balance is returned.  The policy flag is not used by deposit. -/
def Balances.deposit (b : BalDict) (account : String) (amount : Int) :
    BalDict × Except Err Int :=
  if amount < 0 then (b, Except.error (Err.invalidAmount amount))
  else (dictSet b account (dictGetD b account 0 + amount),
        Except.ok (dictGetD b account 0 + amount))

/-- Balances.withdraw: assert_positive_amount, then require (which reads
self.balance.get(account, 0)), then self.balance[account] -= amount -- a plain
subscript read that raises KeyError when the entry is absent -- and finally
_post_withdraw, which under the default policy is delete_entry_if_falsy on the
account entry and otherwise does nothing. -/
def Balances.withdraw (pol : Bool) (b : BalDict) (account : String) (amount : Int) :
    BalDict × Except Err Int :=
  if amount < 0 then (b, Except.error (Err.invalidAmount amount))
  else if dictGetD b account 0 < amount then
    (b, Except.error (Err.insufficientFunds account (dictGetD b account 0) amount))
  else
    match dictGet b account with
    | none => (b, Except.error (Err.keyError account))
    | some v =>
      if pol then
        match delete_entry_if_falsy (fun x => x == 0)
            (dictSet b account (v - amount)) account with
        | (b2, Except.error e) => (b2, Except.error e)
        | (b2, Except.ok _) => (b2, Except.ok (v - amount))
      else (dictSet b account (v - amount), Except.ok (v - amount))

/-- The raw allowance mapping account -> (delegate -> amount). -/
abbrev AllowDict := List (String × List (String × Int))

/-- Allowances.get_all: self.allowances.get(account, {}). -/
def Allowances.get_all (al : AllowDict) (account : String) : List (String × Int) :=
  dictGetD al account []

/-- Allowances.get_one: self.get_all(account).get(delegate,
self._default_allowance).  Under the default policy (pol = true) the
constructor set _default_allowance = 0.  Under the non-default policy the
constructor assigned self._default_balance = None instead of
_default_allowance, so the attribute read raises AttributeError before any
lookup result is produced. -/
def Allowances.get_one (pol : Bool) (al : AllowDict) (account delegate : String) :
    Except Err Int :=
  if pol then Except.ok (dictGetD (Allowances.get_all al account) delegate 0)
  else Except.error (Err.attributeError "_default_allowance")

/-- The authorisation strategy selected by zero_allowance_ok.  The allowance
argument always comes from get_one, which under pol = true is an Int (never
the None sentinel), so the is-not-None conjunct of the zero-allowed variant
is constantly true; truthiness of an int is being nonzero. -/
def Allowances.allow_transfer (zeroOk : Bool) (allowance amount : Int) : Bool :=
  if zeroOk then decide (allowance ≥ amount)
  else decide (allowance ≠ 0) && decide (allowance ≥ amount)

/-- Allowances.require: raise unless _allow_transfer(get_one(...), amount). -/
def Allowances.require (pol zeroOk : Bool) (al : AllowDict)
    (account delegate : String) (amount : Int) : Except Err Unit :=
  match Allowances.get_one pol al account delegate with
  | Except.error e => Except.error e
  | Except.ok a =>
    if Allowances.allow_transfer zeroOk a amount then Except.ok ()
    else Except.error (Err.insufficientAllowance account delegate amount)

/-- Allowances.set: assert_positive_amount, then
self.get_all(account)[delegate] = amount.  When the account is present,
get_all returns the stored inner dict and the write lands in the mapping;
when the account is absent, get_all returns a fresh dict that is never stored,
so the write is discarded and the mapping is unchanged. -/
def Allowances.set (al : AllowDict) (account delegate : String) (amount : Int) :
    AllowDict × Except Err Unit :=
  if amount < 0 then (al, Except.error (Err.invalidAmount amount))
  else
    match dictGet al account with
    | some inner => (dictSet al account (dictSet inner delegate amount), Except.ok ())
    | none => (al, Except.ok ())

/-- _post_decrease_remove_entries_if_falsy: delete_entry_if_falsy on
self.allowances[account] (a subscript read that raises KeyError when the
account is absent) at delegate, then delete_entry_if_falsy on self.allowances
at account.  The inner dict is mutated in place, modelled by writing the
updated inner dict back at the account key. -/
def Allowances.post_decrease (al : AllowDict) (account delegate : String) :
    AllowDict × Except Err Unit :=
  match dictGet al account with
  | none => (al, Except.error (Err.keyError account))
  | some inner =>
    match delete_entry_if_falsy (fun x => x == 0) inner delegate with
    | (_, Except.error e) => (al, Except.error e)
    | (inner1, Except.ok _) =>
      match delete_entry_if_falsy (fun m => m.isEmpty)
          (dictSet al account inner1) account with
      | (al2, Except.error e) => (al2, Except.error e)
      | (al2, Except.ok _) => (al2, Except.ok ())

/-- Allowances.decrease: assert_positive_amount, clamp the new allowance at 0,
store it via set, then run _post_decrease (entry cleanup under the default
policy, nothing otherwise), and return the new allowance. -/
def Allowances.decrease (pol : Bool) (al : AllowDict) (account delegate : String)
    (amount : Int) : AllowDict × Except Err Int :=
  if amount < 0 then (al, Except.error (Err.invalidAmount amount))
  else
    match Allowances.get_one pol al account delegate with
    | Except.error e => (al, Except.error e)
    | Except.ok a =>
      match Allowances.set al account delegate (max 0 (a - amount)) with
      | (al1, Except.error e) => (al1, Except.error e)
      | (al1, Except.ok _) =>
        if pol then
          match Allowances.post_decrease al1 account delegate with
          | (al2, Except.error e) => (al2, Except.error e)
          | (al2, Except.ok _) => (al2, Except.ok (max 0 (a - amount)))
        else (al1, Except.ok (max 0 (a - amount)))

/-- Allowances.increase: assert_positive_amount, then set the allowance to
get_one(...) + amount and return the new allowance. -/
def Allowances.increase (pol : Bool) (al : AllowDict) (account delegate : String)
    (amount : Int) : AllowDict × Except Err Int :=
  if amount < 0 then (al, Except.error (Err.invalidAmount amount))
  else
    match Allowances.get_one pol al account delegate with
    | Except.error e => (al, Except.error e)
    | Except.ok a =>
      match Allowances.set al account delegate (a + amount) with
      | (al1, Except.error e) => (al1, Except.error e)
      | (al1, Except.ok _) => (al1, Except.ok (a + amount))

/-- Allowances.update: route to increase for amount >= 0 and to decrease on
abs(amount) otherwise. -/
def Allowances.update (pol : Bool) (al : AllowDict) (account delegate : String)
    (amount : Int) : AllowDict × Except Err Int :=
  if amount ≥ 0 then Allowances.increase pol al account delegate amount
  else Allowances.decrease pol al account delegate (-amount)

/-- Allowances.transaction: the scoped-spend context manager.  On entry,
require(account, delegate, amount); the wrapped body then runs on its own
state component; on a clean exit the allowance is decreased by amount, while
any failure (on entry or inside the body) propagates without touching the
allowance mapping. -/
def Allowances.transaction {σ ρ : Type} (pol zeroOk : Bool) (al : AllowDict)
    (account delegate : String) (amount : Int) (s0 : σ)
    (body : σ → σ × Except Err ρ) : (σ × AllowDict) × Except Err ρ :=
  match Allowances.require pol zeroOk al account delegate amount with
  | Except.error e => ((s0, al), Except.error e)
  | Except.ok _ =>
    match body s0 with
    | (s1, Except.error e) => ((s1, al), Except.error e)
    | (s1, Except.ok r) =>
      match Allowances.decrease pol al account delegate amount with
      | (al1, Except.error e) => ((s1, al1), Except.error e)
      | (al1, Except.ok _) => ((s1, al1), Except.ok r)

/-- base.transfer: withdraw from the sender, deposit to the recipient, emit
the transfer event (log-sink only, no ledger effect), return True.  The
Balances wrapper is built with the default missing_means_zero policy. -/
def base.transfer (balance_of : BalDict) (sender to_address : String)
    (amount : Int) : BalDict × Except Err Bool :=
  match Balances.withdraw true balance_of sender amount with
  | (b1, Except.error e) => (b1, Except.error e)
  | (b1, Except.ok _) =>
    match Balances.deposit b1 to_address amount with
    | (b2, Except.error e) => (b2, Except.error e)
    | (b2, Except.ok _) => (b2, Except.ok true)

/-- base.mint: deposit into the account, emit the mint event, return the new
total supply. -/
def base.mint (balance_of : BalDict) (total_supply : Int) (account : String)
    (amount : Int) : BalDict × Except Err Int :=
  match Balances.deposit balance_of account amount with
  | (b1, Except.error e) => (b1, Except.error e)
  | (b1, Except.ok _) => (b1, Except.ok (total_supply + amount))

/-- base.burn: withdraw from the account, emit the burn event, return the new
total supply. -/
def base.burn (balance_of : BalDict) (total_supply : Int) (account : String)
    (amount : Int) : BalDict × Except Err Int :=
  match Balances.withdraw true balance_of account amount with
  | (b1, Except.error e) => (b1, Except.error e)
  | (b1, Except.ok _) => (b1, Except.ok (total_supply - amount))

/-- base.approve: Allowances(allowances).set(account, delegate, amount), then
return True. -/
def base.approve (allowances : AllowDict) (account delegate : String)
    (amount : Int) : AllowDict × Except Err Bool :=
  match Allowances.set allowances account delegate amount with
  | (al1, Except.error e) => (al1, Except.error e)
  | (al1, Except.ok _) => (al1, Except.ok true)

/-- base.update_approve: Allowances(allowances).update(...) with the default
policy. -/
def base.update_approve (allowances : AllowDict) (account delegate : String)
    (delta_amount : Int) : AllowDict × Except Err Int :=
  Allowances.update true allowances account delegate delta_amount

/-- base.transfer_from: run base.transfer inside the allowance transaction for
(from_address, delegate, amount), with the default policy flags. -/
def base.transfer_from (balance_of : BalDict) (allowances : AllowDict)
    (delegate from_address to_address : String) (amount : Int) :
    (BalDict × AllowDict) × Except Err Bool :=
  Allowances.transaction true false allowances from_address delegate amount
    balance_of (fun b => base.transfer b from_address to_address amount)

/-- base.burn_from: run base.burn inside the allowance transaction for
(from_address, delegate, amount), with the default policy flags. -/
def base.burn_from (balance_of : BalDict) (allowances : AllowDict)
    (total_supply : Int) (delegate from_address : String) (amount : Int) :
    (BalDict × AllowDict) × Except Err Int :=
  Allowances.transaction true false allowances from_address delegate amount
    balance_of (fun b => base.burn b total_supply from_address amount)

/-- A registered event callable: its Python id(), the event name and the
declared argument-name set captured in the closure. -/
structure EventFn where
  eid : Nat
  name : String
  args : List String
  deriving Repr, DecidableEq

/-- The module-level state of events.py: the (unreliable) name set
_registered_events, the (reliable) id set _registered_events_ids, the module
globals holding one entry per registered event, and a counter standing in for
Python id() allocation of fresh callables. -/
structure EventsState where
  registeredEvents : List String
  registeredEventIds : List Nat
  eventGlobals : List (String × EventFn)
  nextId : Nat
  deriving Repr, DecidableEq

def emptyEventsState : EventsState := ⟨[], [], [], 0⟩

/-- events.unregister(name).  A name absent from the module globals is a
no-op.  Otherwise _registered_events_ids.remove(id(event)) runs first (set
removal raises KeyError when the id is missing), and then
_registered_events.remove(event) removes the callable -- not its name -- from
the set of names, which always raises KeyError, leaving the globals entry and
the name entry in place. -/
def events.unregister (st : EventsState) (event_name : String) :
    EventsState × Except Err Unit :=
  match dictGet st.eventGlobals event_name with
  | none => (st, Except.ok ())
  | some f =>
    if f.eid ∈ st.registeredEventIds then
      ({ st with registeredEventIds := st.registeredEventIds.erase f.eid },
       Except.error (Err.keyError event_name))
    else (st, Except.error (Err.keyError event_name))

/-- events.register(name, args): build the fresh _event closure (a fresh id),
unregister any event already using the name (any exception propagating from
there aborts the registration), then install the event in the globals and the
two registries and return it. -/
def events.register (st : EventsState) (event_name : String)
    (args : List String) : EventsState × Except Err EventFn :=
  match (if event_name ∈ st.registeredEvents then
          events.unregister { st with nextId := st.nextId + 1 } event_name
         else ({ st with nextId := st.nextId + 1 }, Except.ok ())) with
  | (st2, Except.error e) => (st2, Except.error e)
  | (st2, Except.ok _) =>
    ({ st2 with
        eventGlobals := dictSet st2.eventGlobals event_name
          ⟨st.nextId, event_name, args⟩,
        registeredEvents :=
          if event_name ∈ st2.registeredEvents then st2.registeredEvents
          else st2.registeredEvents ++ [event_name],
        registeredEventIds :=
          if st.nextId ∈ st2.registeredEventIds then st2.registeredEventIds
          else st2.registeredEventIds ++ [st.nextId] },
     Except.ok ⟨st.nextId, event_name, args⟩)

/-- Calling a previously returned event callable with the given kwarg names:
raise LookupError if the callable's id is no longer registered, raise a
schema-mismatch ValueError if the kwarg-name set differs from the declared
argument set, and otherwise log the payload (a no-op on the ledgers). -/
def events.callEvent (st : EventsState) (f : EventFn)
    (kwargNames : List String) : Except Err Unit :=
  if f.eid ∈ st.registeredEventIds then
    if kwargNames.all (fun a => a ∈ f.args) && f.args.all (fun a => a ∈ kwargNames)
    then Except.ok ()
    else Except.error (Err.schemaMismatch f.name)
  else Except.error (Err.lookupError f.name)

/-- Every stored balance value is nonnegative. -/
def balNonneg (b : BalDict) : Prop := ∀ p ∈ b, 0 ≤ p.2

/-- Every stored allowance value is nonnegative. -/
def allowNonneg (al : AllowDict) : Prop := ∀ p ∈ al, balNonneg p.2

/-- The association list has pairwise distinct keys (the Python dict
invariant). -/
def keysNodup {β : Type} (d : List (String × β)) : Prop := (d.map Prod.fst).Nodup

/-- Well-formedness of a raw allowance mapping: distinct account keys, and
distinct delegate keys in every inner dict. -/
def allowWF (al : AllowDict) : Prop := keysNodup al ∧ ∀ p ∈ al, keysNodup p.2

/-- The sum of all stored balance values. -/
def dsum (b : BalDict) : Int := (b.map Prod.snd).sum

/-- The allowance of delegate on account as observed under the default
policy: stored value, or 0 when absent. -/
def allowGetOneD (al : AllowDict) (account delegate : String) : Int :=
  dictGetD (Allowances.get_all al account) delegate 0

instance (b : BalDict) : Decidable (balNonneg b) := by
  unfold balNonneg; infer_instance

instance (al : AllowDict) : Decidable (allowNonneg al) := by
  unfold allowNonneg balNonneg; infer_instance

instance {β : Type} (d : List (String × β)) : Decidable (keysNodup d) := by
  unfold keysNodup; infer_instance

instance (al : AllowDict) : Decidable (allowWF al) := by
  unfold allowWF keysNodup; infer_instance

/-- One call of a mint/burn-free sequence: a base.transfer or a
base.transfer_from. -/
inductive LedgerCall where
  | transferCall (sender to_address : String) (amount : Int)
  | transferFromCall (delegate from_address to_address : String) (amount : Int)

/-- Run one call against the pair of raw ledgers, keeping whatever state the
call left behind whether it succeeded or failed. -/
def runCall (st : BalDict × AllowDict) (c : LedgerCall) : BalDict × AllowDict :=
  match c with
  | LedgerCall.transferCall s t amt => ((base.transfer st.1 s t amt).1, st.2)
  | LedgerCall.transferFromCall d f t amt => (base.transfer_from st.1 st.2 d f t amt).1

/-- Run a sequence of calls left to right. -/
def runCalls (st : BalDict × AllowDict) (calls : List LedgerCall) :
    BalDict × AllowDict :=
  calls.foldl runCall st

theorem dictGet_set_self {β : Type} (d : List (String × β)) (k : String) (v : β) :
    dictGet (dictSet d k v) k = some v := by
  induction d with
  | nil => simp [dictSet, dictGet]
  | cons p rest ih =>
    obtain ⟨k1, w⟩ := p
    by_cases h : k1 = k
    · simp [dictSet, h, dictGet]
    · simp [dictSet, h, dictGet, ih]

theorem dictGet_set_ne {β : Type} (d : List (String × β)) (k c : String) (v : β)
    (h : c ≠ k) : dictGet (dictSet d k v) c = dictGet d c := by
  induction d with
  | nil => simp [dictSet, dictGet, Ne.symm h]
  | cons p rest ih =>
    obtain ⟨k1, w⟩ := p
    by_cases hk : k1 = k
    · subst hk
      simp [dictSet, dictGet, Ne.symm h]
    · by_cases hc : k1 = c <;> simp [dictSet, hk, dictGet, hc, ih, h]

theorem dictGet_del_ne {β : Type} (d : List (String × β)) (k c : String)
    (h : c ≠ k) : dictGet (dictDel d k) c = dictGet d c := by
  induction d with
  | nil => simp [dictDel]
  | cons p rest ih =>
    obtain ⟨k1, w⟩ := p
    by_cases hk : k1 = k
    · subst hk
      simp [dictDel, dictGet, Ne.symm h]
    · by_cases hc : k1 = c <;> simp [dictDel, hk, dictGet, hc, ih, h]

theorem dictGet_eq_none_of_not_mem {β : Type} (d : List (String × β)) (k : String)
    (h : k ∉ d.map Prod.fst) : dictGet d k = none := by
  induction d with
  | nil => simp [dictGet]
  | cons p rest ih =>
    obtain ⟨k1, w⟩ := p
    simp only [List.map_cons, List.mem_cons] at h
    push_neg at h
    simp [dictGet, Ne.symm h.1, ih h.2]

theorem dictGet_del_self {β : Type} (d : List (String × β)) (k : String)
    (h : keysNodup d) : dictGet (dictDel d k) k = none := by
  induction d with
  | nil => simp [dictDel, dictGet]
  | cons p rest ih =>
    obtain ⟨k1, w⟩ := p
    unfold keysNodup at h
    simp only [List.map_cons, List.nodup_cons] at h
    by_cases hk : k1 = k
    · subst hk
      simpa [dictDel] using dictGet_eq_none_of_not_mem rest k1 h.1
    · simp [dictDel, hk, dictGet, ih h.2]

theorem dictGet_eq_some_mem {β : Type} (d : List (String × β)) (k : String) (v : β)
    (h : dictGet d k = some v) : (k, v) ∈ d := by
  induction d with
  | nil => simp [dictGet] at h
  | cons p rest ih =>
    obtain ⟨k1, w⟩ := p
    by_cases hk : k1 = k
    · subst hk
      simp [dictGet] at h
      subst h
      simp
    · simp [dictGet, hk] at h
      simp [ih h]

theorem dictSet_cons_self {β : Type} (k1 : String) (w v : β)
    (rest : List (String × β)) :
    dictSet ((k1, w) :: rest) k1 v = (k1, v) :: rest := by
  simp [dictSet]

theorem dictSet_cons_ne {β : Type} (k1 k : String) (w v : β)
    (rest : List (String × β)) (hk : k1 ≠ k) :
    dictSet ((k1, w) :: rest) k v = (k1, w) :: dictSet rest k v := by
  simp [dictSet, hk]

theorem dictDel_cons_self {β : Type} (k1 : String) (w : β)
    (rest : List (String × β)) :
    dictDel ((k1, w) :: rest) k1 = rest := by
  simp [dictDel]

theorem dictDel_cons_ne {β : Type} (k1 k : String) (w : β)
    (rest : List (String × β)) (hk : k1 ≠ k) :
    dictDel ((k1, w) :: rest) k = (k1, w) :: dictDel rest k := by
  simp [dictDel, hk]

theorem mem_keys_dictSet {β : Type} (d : List (String × β)) (k c : String) (v : β)
    (h : c ∈ (dictSet d k v).map Prod.fst) : c ∈ d.map Prod.fst ∨ c = k := by
  induction d with
  | nil =>
    simp only [dictSet, List.map_cons, List.map_nil, List.mem_cons,
      List.not_mem_nil, or_false] at h
    exact Or.inr h
  | cons p rest ih =>
    obtain ⟨k1, w⟩ := p
    by_cases hk : k1 = k
    · subst hk
      rw [dictSet_cons_self] at h
      simp only [List.map_cons, List.mem_cons] at h ⊢
      tauto
    · rw [dictSet_cons_ne k1 k w v rest hk] at h
      simp only [List.map_cons, List.mem_cons] at h ⊢
      rcases h with h | h
      · tauto
      · rcases ih h with h1 | h1 <;> tauto

theorem mem_keys_dictDel {β : Type} (d : List (String × β)) (k c : String)
    (h : c ∈ (dictDel d k).map Prod.fst) : c ∈ d.map Prod.fst := by
  induction d with
  | nil => simp [dictDel] at h
  | cons p rest ih =>
    obtain ⟨k1, w⟩ := p
    by_cases hk : k1 = k
    · subst hk
      rw [dictDel_cons_self] at h
      simp only [List.map_cons, List.mem_cons]
      tauto
    · rw [dictDel_cons_ne k1 k w rest hk] at h
      simp only [List.map_cons, List.mem_cons] at h ⊢
      rcases h with h | h
      · tauto
      · exact Or.inr (ih h)

theorem keysNodup_dictSet {β : Type} (d : List (String × β)) (k : String) (v : β)
    (h : keysNodup d) : keysNodup (dictSet d k v) := by
  induction d with
  | nil => simp [dictSet, keysNodup]
  | cons p rest ih =>
    obtain ⟨k1, w⟩ := p
    unfold keysNodup at h ⊢
    simp only [List.map_cons, List.nodup_cons] at h
    by_cases hk : k1 = k
    · subst hk
      rw [dictSet_cons_self]
      simp only [List.map_cons, List.nodup_cons]
      exact h
    · rw [dictSet_cons_ne k1 k w v rest hk]
      simp only [List.map_cons, List.nodup_cons]
      refine ⟨fun hm => ?_, ih h.2⟩
      rcases mem_keys_dictSet rest k k1 v hm with h1 | h1
      · exact h.1 h1
      · exact hk h1

theorem keysNodup_dictDel {β : Type} (d : List (String × β)) (k : String)
    (h : keysNodup d) : keysNodup (dictDel d k) := by
  induction d with
  | nil => simp [dictDel, keysNodup]
  | cons p rest ih =>
    obtain ⟨k1, w⟩ := p
    unfold keysNodup at h ⊢
    simp only [List.map_cons, List.nodup_cons] at h
    by_cases hk : k1 = k
    · subst hk
      rw [dictDel_cons_self]
      exact h.2
    · rw [dictDel_cons_ne k1 k w rest hk]
      simp only [List.map_cons, List.nodup_cons]
      exact ⟨fun hm => h.1 (mem_keys_dictDel rest k k1 hm), ih h.2⟩

theorem dictSet_ne_nil {β : Type} (d : List (String × β)) (k : String) (v : β) :
    dictSet d k v ≠ [] := by
  cases d with
  | nil => simp [dictSet]
  | cons p rest =>
    obtain ⟨k1, w⟩ := p
    by_cases h : k1 = k <;> simp [dictSet, h]

theorem isEmpty_false_of_ne_nil {α : Type} (l : List α) (h : l ≠ []) :
    l.isEmpty = false := by
  cases l with
  | nil => exact absurd rfl h
  | cons a t => rfl

theorem dsum_dictSet (b : BalDict) (k : String) (v : Int) :
    dsum (dictSet b k v) = dsum b + v - dictGetD b k 0 := by
  induction b with
  | nil => simp [dictSet, dsum, dictGetD, dictGet]
  | cons p rest ih =>
    obtain ⟨k1, w⟩ := p
    by_cases h : k1 = k
    · simp [dictSet, h, dsum, dictGetD, dictGet]
      ring
    · simp only [dictSet, h, ite_false, dsum, List.map_cons, List.sum_cons,
        dictGetD, dictGet] at ih ⊢
      omega

theorem dsum_dictDel (b : BalDict) (k : String) (v : Int)
    (h : dictGet b k = some v) : dsum (dictDel b k) = dsum b - v := by
  induction b with
  | nil => simp [dictGet] at h
  | cons p rest ih =>
    obtain ⟨k1, w⟩ := p
    by_cases hk : k1 = k
    · simp [dictGet, hk] at h
      subst h
      simp [dictDel, hk, dsum]
    · simp [dictGet, hk] at h
      simp only [dictDel, hk, ite_false, dsum, List.map_cons, List.sum_cons]
      have := ih h
      unfold dsum at this
      omega

theorem mem_dictSet_cases {β : Type} (d : List (String × β)) (k : String) (v : β)
    (p : String × β) (h : p ∈ dictSet d k v) : p.2 = v ∨ p ∈ d := by
  induction d with
  | nil =>
    simp [dictSet] at h
    simp [h]
  | cons q rest ih =>
    obtain ⟨k1, w⟩ := q
    by_cases hk : k1 = k
    · simp [dictSet, hk] at h
      rcases h with h | h
      · simp [h]
      · simp [h]
    · simp [dictSet, hk] at h
      rcases h with h | h
      · simp [h]
      · rcases ih h with h1 | h1
        · simp [h1]
        · simp [h1]

theorem mem_dictDel {β : Type} (d : List (String × β)) (k : String)
    (p : String × β) (h : p ∈ dictDel d k) : p ∈ d := by
  induction d with
  | nil => simp [dictDel] at h
  | cons q rest ih =>
    obtain ⟨k1, w⟩ := q
    by_cases hk : k1 = k
    · simp [dictDel, hk] at h
      simp [h]
    · simp [dictDel, hk] at h
      rcases h with h | h
      · simp [h]
      · simp [ih h]

theorem balNonneg_dictSet (b : BalDict) (k : String) (v : Int)
    (hb : balNonneg b) (hv : 0 ≤ v) : balNonneg (dictSet b k v) := by
  intro p hp
  rcases mem_dictSet_cases b k v p hp with h | h
  · rw [h]; exact hv
  · exact hb p h

theorem balNonneg_dictDel (b : BalDict) (k : String) (hb : balNonneg b) :
    balNonneg (dictDel b k) :=
  fun p hp => hb p (mem_dictDel b k p hp)

theorem dictGetD_zero_nonneg (b : BalDict) (k : String) (hb : balNonneg b) :
    0 ≤ dictGetD b k 0 := by
  unfold dictGetD
  cases h : dictGet b k with
  | none => simp
  | some v => simpa using hb (k, v) (dictGet_eq_some_mem b k v h)

theorem allowNonneg_dictSet (al : AllowDict) (k : String)
    (inner : List (String × Int)) (h : allowNonneg al) (hi : balNonneg inner) :
    allowNonneg (dictSet al k inner) := by
  intro p hp
  rcases mem_dictSet_cases al k inner p hp with h1 | h1
  · rw [h1]; exact hi
  · exact h p h1

theorem allowNonneg_dictDel (al : AllowDict) (k : String) (h : allowNonneg al) :
    allowNonneg (dictDel al k) :=
  fun p hp => h p (mem_dictDel al k p hp)

theorem allowNonneg_get_all (al : AllowDict) (account : String)
    (h : allowNonneg al) : balNonneg (Allowances.get_all al account) := by
  unfold Allowances.get_all dictGetD
  cases hg : dictGet al account with
  | none => intro p hp; simp at hp
  | some inner =>
    simpa using h (account, inner) (dictGet_eq_some_mem al account inner hg)

theorem allowGetOneD_nonneg (al : AllowDict) (account delegate : String)
    (h : allowNonneg al) : 0 ≤ allowGetOneD al account delegate :=
  dictGetD_zero_nonneg _ _ (allowNonneg_get_all al account h)

theorem Balances.withdraw_eq (pol : Bool) (b : BalDict) (account : String)
    (amount : Int) :
    Balances.withdraw pol b account amount =
      if amount < 0 then (b, Except.error (Err.invalidAmount amount))
      else if dictGetD b account 0 < amount then
        (b, Except.error
          (Err.insufficientFunds account (dictGetD b account 0) amount))
      else
        match dictGet b account with
        | none => (b, Except.error (Err.keyError account))
        | some v =>
          (if pol ∧ v - amount = 0 then
             dictDel (dictSet b account (v - amount)) account
           else dictSet b account (v - amount),
           Except.ok (v - amount)) := by
  unfold Balances.withdraw delete_entry_if_falsy
  split
  · rfl
  split
  · rfl
  split
  · rfl
  rename_i v hv
  cases pol with
  | false => simp
  | true =>
    rw [dictGet_set_self]
    by_cases h0 : v - amount = 0 <;> simp [h0]

theorem Balances.withdraw_cases (pol : Bool) (b : BalDict) (account : String)
    (amount : Int) :
    ((Balances.withdraw pol b account amount).1 = b ∧
      ∃ e, (Balances.withdraw pol b account amount).2 = Except.error e) ∨
    (0 ≤ amount ∧ amount ≤ dictGetD b account 0 ∧
      ∃ v, dictGet b account = some v ∧
        (Balances.withdraw pol b account amount).2 = Except.ok (v - amount) ∧
        (Balances.withdraw pol b account amount).1 =
          (if pol ∧ v - amount = 0 then
             dictDel (dictSet b account (v - amount)) account
           else dictSet b account (v - amount))) := by
  rw [Balances.withdraw_eq]
  split
  · exact Or.inl ⟨rfl, _, rfl⟩
  split
  · exact Or.inl ⟨rfl, _, rfl⟩
  split
  · exact Or.inl ⟨rfl, _, rfl⟩
  rename_i h1 h2 v hv
  exact Or.inr ⟨by omega, by omega, v, hv, rfl, rfl⟩

theorem Balances.deposit_nonneg_eq (b : BalDict) (account : String) (amount : Int)
    (h : 0 ≤ amount) :
    Balances.deposit b account amount =
      (dictSet b account (dictGetD b account 0 + amount),
       Except.ok (dictGetD b account 0 + amount)) := by
  unfold Balances.deposit
  rw [if_neg (by omega)]

theorem Balances.deposit_neg_eq (b : BalDict) (account : String) (amount : Int)
    (h : amount < 0) :
    Balances.deposit b account amount =
      (b, Except.error (Err.invalidAmount amount)) := by
  unfold Balances.deposit
  rw [if_pos h]

theorem balNonneg_deposit (b : BalDict) (account : String) (amount : Int)
    (hb : balNonneg b) : balNonneg (Balances.deposit b account amount).1 := by
  by_cases h : amount < 0
  · rw [Balances.deposit_neg_eq b account amount h]
    exact hb
  · rw [Balances.deposit_nonneg_eq b account amount (by omega)]
    refine balNonneg_dictSet _ _ _ hb ?_
    have := dictGetD_zero_nonneg b account hb
    omega

theorem balNonneg_withdraw (pol : Bool) (b : BalDict) (account : String)
    (amount : Int) (hb : balNonneg b) :
    balNonneg (Balances.withdraw pol b account amount).1 := by
  rcases Balances.withdraw_cases pol b account amount with
    ⟨h1, _⟩ | ⟨h1, h2, v, hv, hok, hst⟩
  · rw [h1]; exact hb
  · rw [hst]
    have hgv : dictGetD b account 0 = v := by simp [dictGetD, hv]
    have hnn : 0 ≤ v - amount := by omega
    split
    · exact balNonneg_dictDel _ _ (balNonneg_dictSet _ _ _ hb hnn)
    · exact balNonneg_dictSet _ _ _ hb hnn

theorem withdraw_error_state (pol : Bool) (b : BalDict) (account : String)
    (amount : Int) (e : Err)
    (h : (Balances.withdraw pol b account amount).2 = Except.error e) :
    (Balances.withdraw pol b account amount).1 = b := by
  rcases Balances.withdraw_cases pol b account amount with
    ⟨h1, _⟩ | ⟨_, _, v, _, hok, _⟩
  · exact h1
  · rw [hok] at h
    simp at h

theorem dsum_withdraw_ok (pol : Bool) (b : BalDict) (account : String)
    (amount : Int) (nb : Int)
    (h : (Balances.withdraw pol b account amount).2 = Except.ok nb) :
    0 ≤ amount ∧
      dsum (Balances.withdraw pol b account amount).1 = dsum b - amount := by
  rcases Balances.withdraw_cases pol b account amount with
    ⟨_, e, he⟩ | ⟨h1, h2, v, hv, hok, hst⟩
  · rw [he] at h; simp at h
  · refine ⟨h1, ?_⟩
    rw [hst]
    have hgv : dictGetD b account 0 = v := by simp [dictGetD, hv]
    split
    · rename_i hdel
      rw [dsum_dictDel _ _ _ (dictGet_set_self b account (v - amount)),
        dsum_dictSet]
      omega
    · rw [dsum_dictSet]
      omega

theorem dictGet_withdraw_ne (pol : Bool) (b : BalDict) (account c : String)
    (amount : Int) (hc : c ≠ account) :
    dictGet (Balances.withdraw pol b account amount).1 c = dictGet b c := by
  rcases Balances.withdraw_cases pol b account amount with
    ⟨h1, _⟩ | ⟨_, _, v, hv, _, hst⟩
  · rw [h1]
  · rw [hst]
    split
    · rw [dictGet_del_ne _ _ _ hc, dictGet_set_ne _ _ _ _ hc]
    · rw [dictGet_set_ne _ _ _ _ hc]

theorem dictGet_deposit_ne (b : BalDict) (account c : String) (amount : Int)
    (hc : c ≠ account) :
    dictGet (Balances.deposit b account amount).1 c = dictGet b c := by
  by_cases h : amount < 0
  · rw [Balances.deposit_neg_eq _ _ _ h]
  · rw [Balances.deposit_nonneg_eq _ _ _ (by omega)]
    exact dictGet_set_ne _ _ _ _ hc

theorem transfer_getOther (b : BalDict) (s t c : String) (amount : Int)
    (hcs : c ≠ s) (hct : c ≠ t) :
    dictGet (base.transfer b s t amount).1 c = dictGet b c := by
  unfold base.transfer
  split
  · rename_i b1 e heq
    have h := dictGet_withdraw_ne true b s c amount hcs
    rw [heq] at h
    exact h
  · rename_i b1 nb heq
    have h1 : dictGet b1 c = dictGet b c := by
      have h := dictGet_withdraw_ne true b s c amount hcs
      rw [heq] at h
      exact h
    split
    · rename_i b2 e2 heq2
      have h2 : dictGet b2 c = dictGet b1 c := by
        have h := dictGet_deposit_ne b1 t c amount hct
        rw [heq2] at h
        exact h
      exact h2.trans h1
    · rename_i b2 nb2 heq2
      have h2 : dictGet b2 c = dictGet b1 c := by
        have h := dictGet_deposit_ne b1 t c amount hct
        rw [heq2] at h
        exact h
      exact h2.trans h1

theorem dsum_transfer (b : BalDict) (s t : String) (amount : Int) :
    dsum (base.transfer b s t amount).1 = dsum b := by
  unfold base.transfer
  split
  · rename_i b1 e heq
    have h := withdraw_error_state true b s amount e (by rw [heq])
    rw [heq] at h
    exact congrArg dsum h
  · rename_i b1 nb heq
    have hamt : 0 ≤ amount := by
      have h := (dsum_withdraw_ok true b s amount nb (by rw [heq])).1
      exact h
    have hsum : dsum b1 = dsum b - amount := by
      have h := (dsum_withdraw_ok true b s amount nb (by rw [heq])).2
      rw [heq] at h
      exact h
    rw [Balances.deposit_nonneg_eq b1 t amount hamt]
    show dsum (dictSet b1 t (dictGetD b1 t 0 + amount)) = dsum b
    rw [dsum_dictSet]
    omega

theorem allowNonneg_set (al : AllowDict) (account delegate : String)
    (amount : Int) (h : allowNonneg al) :
    allowNonneg (Allowances.set al account delegate amount).1 := by
  unfold Allowances.set
  split
  · exact h
  rename_i hneg
  split
  · rename_i inner hin
    refine allowNonneg_dictSet _ _ _ h (balNonneg_dictSet _ _ _ ?_ (by omega))
    exact h (account, inner) (dictGet_eq_some_mem al account inner hin)
  · exact h

theorem delete_entry_state {β : Type} (falsy : β → Bool)
    (dct : List (String × β)) (key : String) :
    (delete_entry_if_falsy falsy dct key).1 = dct ∨
    (delete_entry_if_falsy falsy dct key).1 = dictDel dct key := by
  unfold delete_entry_if_falsy
  split
  · exact Or.inl rfl
  split
  · exact Or.inr rfl
  · exact Or.inl rfl

theorem balNonneg_delete_entry (b : BalDict) (key : String) (falsy : Int → Bool)
    (h : balNonneg b) : balNonneg (delete_entry_if_falsy falsy b key).1 := by
  rcases delete_entry_state falsy b key with hd | hd
  · rw [hd]; exact h
  · rw [hd]; exact balNonneg_dictDel _ _ h

theorem allowNonneg_delete_entry (al : AllowDict) (key : String)
    (falsy : List (String × Int) → Bool) (h : allowNonneg al) :
    allowNonneg (delete_entry_if_falsy falsy al key).1 := by
  rcases delete_entry_state falsy al key with hd | hd
  · rw [hd]; exact h
  · rw [hd]; exact allowNonneg_dictDel _ _ h

theorem allowNonneg_post_decrease (al : AllowDict) (account delegate : String)
    (h : allowNonneg al) :
    allowNonneg (Allowances.post_decrease al account delegate).1 := by
  unfold Allowances.post_decrease
  split
  · exact h
  rename_i inner hin
  have hinner : balNonneg inner :=
    h (account, inner) (dictGet_eq_some_mem al account inner hin)
  split
  · exact h
  rename_i inner1 u hsp
  have hinner1 : balNonneg inner1 := by
    have h1 := balNonneg_delete_entry inner delegate (fun x => x == 0) hinner
    rw [hsp] at h1
    exact h1
  have hset : allowNonneg (dictSet al account inner1) :=
    allowNonneg_dictSet _ _ _ h hinner1
  split
  · rename_i al2 e hsp2
    have h2 := allowNonneg_delete_entry (dictSet al account inner1) account
      (fun m => m.isEmpty) hset
    rw [hsp2] at h2
    exact h2
  · rename_i al2 u2 hsp2
    have h2 := allowNonneg_delete_entry (dictSet al account inner1) account
      (fun m => m.isEmpty) hset
    rw [hsp2] at h2
    exact h2

theorem allowNonneg_decrease (pol : Bool) (al : AllowDict)
    (account delegate : String) (amount : Int) (h : allowNonneg al) :
    allowNonneg (Allowances.decrease pol al account delegate amount).1 := by
  unfold Allowances.decrease
  split
  · exact h
  split
  · exact h
  rename_i a hgo
  split
  · rename_i al1 e hs
    have h1 := allowNonneg_set al account delegate (max 0 (a - amount)) h
    rw [hs] at h1
    exact h1
  rename_i al1 u hs
  have hal1 : allowNonneg al1 := by
    have h1 := allowNonneg_set al account delegate (max 0 (a - amount)) h
    rw [hs] at h1
    exact h1
  split
  · split
    · rename_i al2 e hp
      have h2 := allowNonneg_post_decrease al1 account delegate hal1
      rw [hp] at h2
      exact h2
    · rename_i al2 u2 hp
      have h2 := allowNonneg_post_decrease al1 account delegate hal1
      rw [hp] at h2
      exact h2
  · exact hal1

theorem allowNonneg_increase (pol : Bool) (al : AllowDict)
    (account delegate : String) (amount : Int) (h : allowNonneg al) :
    allowNonneg (Allowances.increase pol al account delegate amount).1 := by
  unfold Allowances.increase
  split
  · exact h
  split
  · exact h
  rename_i a hgo
  split
  · rename_i al1 e hs
    have h1 := allowNonneg_set al account delegate (a + amount) h
    rw [hs] at h1
    exact h1
  · rename_i al1 u hs
    have h1 := allowNonneg_set al account delegate (a + amount) h
    rw [hs] at h1
    exact h1

theorem allowNonneg_update (pol : Bool) (al : AllowDict)
    (account delegate : String) (amount : Int) (h : allowNonneg al) :
    allowNonneg (Allowances.update pol al account delegate amount).1 := by
  unfold Allowances.update
  split
  · exact allowNonneg_increase pol al account delegate amount h
  · exact allowNonneg_decrease pol al account delegate (-amount) h

theorem balNonneg_transfer (b : BalDict) (s t : String) (amount : Int)
    (hb : balNonneg b) : balNonneg (base.transfer b s t amount).1 := by
  unfold base.transfer
  split
  · rename_i b1 e heq
    have h := balNonneg_withdraw true b s amount hb
    rw [heq] at h
    exact h
  · rename_i b1 nb heq
    have h1 : balNonneg b1 := by
      have h := balNonneg_withdraw true b s amount hb
      rw [heq] at h
      exact h
    split
    · rename_i b2 e2 heq2
      have h2 := balNonneg_deposit b1 t amount h1
      rw [heq2] at h2
      exact h2
    · rename_i b2 nb2 heq2
      have h2 := balNonneg_deposit b1 t amount h1
      rw [heq2] at h2
      exact h2

theorem balNonneg_mint (b : BalDict) (total_supply : Int) (account : String)
    (amount : Int) (hb : balNonneg b) :
    balNonneg (base.mint b total_supply account amount).1 := by
  unfold base.mint
  split
  · rename_i b1 e heq
    have h := balNonneg_deposit b account amount hb
    rw [heq] at h
    exact h
  · rename_i b1 nb heq
    have h := balNonneg_deposit b account amount hb
    rw [heq] at h
    exact h

theorem balNonneg_burn (b : BalDict) (total_supply : Int) (account : String)
    (amount : Int) (hb : balNonneg b) :
    balNonneg (base.burn b total_supply account amount).1 := by
  unfold base.burn
  split
  · rename_i b1 e heq
    have h := balNonneg_withdraw true b account amount hb
    rw [heq] at h
    exact h
  · rename_i b1 nb heq
    have h := balNonneg_withdraw true b account amount hb
    rw [heq] at h
    exact h

theorem allowNonneg_approve (al : AllowDict) (account delegate : String)
    (amount : Int) (h : allowNonneg al) :
    allowNonneg (base.approve al account delegate amount).1 := by
  unfold base.approve
  split
  · rename_i al1 e hs
    have h1 := allowNonneg_set al account delegate amount h
    rw [hs] at h1
    exact h1
  · rename_i al1 u hs
    have h1 := allowNonneg_set al account delegate amount h
    rw [hs] at h1
    exact h1

theorem allowNonneg_update_approve (al : AllowDict) (account delegate : String)
    (delta_amount : Int) (h : allowNonneg al) :
    allowNonneg (base.update_approve al account delegate delta_amount).1 :=
  allowNonneg_update true al account delegate delta_amount h

theorem transaction_nonneg {σ ρ : Type} (pol zeroOk : Bool) (al : AllowDict)
    (account delegate : String) (amount : Int) (s0 : σ)
    (body : σ → σ × Except Err ρ) (P : σ → Prop)
    (hal : allowNonneg al) (hs0 : P s0) (hbody : P (body s0).1) :
    P (Allowances.transaction pol zeroOk al account delegate amount s0 body).1.1 ∧
      allowNonneg
        (Allowances.transaction pol zeroOk al account delegate amount s0 body).1.2 := by
  unfold Allowances.transaction
  split
  · exact ⟨hs0, hal⟩
  split
  · rename_i s1 e hb
    have h1 : P s1 := by rw [hb] at hbody; exact hbody
    exact ⟨h1, hal⟩
  rename_i s1 r hb
  have h1 : P s1 := by rw [hb] at hbody; exact hbody
  split
  · rename_i al1 e hd
    have h2 := allowNonneg_decrease pol al account delegate amount hal
    rw [hd] at h2
    exact ⟨h1, h2⟩
  · rename_i al1 u hd
    have h2 := allowNonneg_decrease pol al account delegate amount hal
    rw [hd] at h2
    exact ⟨h1, h2⟩

theorem nonneg_transfer_from (b : BalDict) (al : AllowDict)
    (delegate from_address to_address : String) (amount : Int)
    (hb : balNonneg b) (hal : allowNonneg al) :
    balNonneg (base.transfer_from b al delegate from_address to_address amount).1.1 ∧
      allowNonneg
        (base.transfer_from b al delegate from_address to_address amount).1.2 := by
  unfold base.transfer_from
  exact transaction_nonneg true false al from_address delegate amount b
    (fun x => base.transfer x from_address to_address amount) balNonneg hal hb
    (balNonneg_transfer b from_address to_address amount hb)

theorem nonneg_burn_from (b : BalDict) (al : AllowDict) (total_supply : Int)
    (delegate from_address : String) (amount : Int)
    (hb : balNonneg b) (hal : allowNonneg al) :
    balNonneg (base.burn_from b al total_supply delegate from_address amount).1.1 ∧
      allowNonneg
        (base.burn_from b al total_supply delegate from_address amount).1.2 := by
  unfold base.burn_from
  exact transaction_nonneg true false al from_address delegate amount b
    (fun x => base.burn x total_supply from_address amount) balNonneg hal hb
    (balNonneg_burn b total_supply from_address amount hb)

theorem transaction_state {σ ρ : Type} (pol zeroOk : Bool) (al : AllowDict)
    (account delegate : String) (amount : Int) (s0 : σ)
    (body : σ → σ × Except Err ρ) :
    (Allowances.transaction pol zeroOk al account delegate amount s0 body).1.1 = s0 ∨
    (Allowances.transaction pol zeroOk al account delegate amount s0 body).1.1
      = (body s0).1 := by
  unfold Allowances.transaction
  split
  · exact Or.inl rfl
  split
  · rename_i s1 e hb
    right
    rw [hb]
  rename_i s1 r hb
  split
  · right
    rw [hb]
  · right
    rw [hb]

theorem dsum_transfer_from (b : BalDict) (al : AllowDict)
    (delegate from_address to_address : String) (amount : Int) :
    dsum (base.transfer_from b al delegate from_address to_address amount).1.1
      = dsum b := by
  unfold base.transfer_from
  rcases transaction_state true false al from_address delegate amount b
    (fun x => base.transfer x from_address to_address amount) with h | h
  · rw [h]
  · rw [h]
    exact dsum_transfer b from_address to_address amount

theorem Allowances.require_true_eq (zeroOk : Bool) (al : AllowDict)
    (account delegate : String) (amount : Int) :
    Allowances.require true zeroOk al account delegate amount =
      (if Allowances.allow_transfer zeroOk (allowGetOneD al account delegate) amount
       then Except.ok ()
       else Except.error (Err.insufficientAllowance account delegate amount)) := by
  simp [Allowances.require, Allowances.get_one, allowGetOneD]

theorem Allowances.require_ok_inv (al : AllowDict) (account delegate : String)
    (amount : Int)
    (h : Allowances.require true false al account delegate amount = Except.ok ()) :
    allowGetOneD al account delegate ≠ 0 ∧
      amount ≤ allowGetOneD al account delegate := by
  rw [Allowances.require_true_eq] at h
  split at h
  · rename_i hc
    unfold Allowances.allow_transfer at hc
    simp at hc
    exact hc
  · simp at h

theorem Allowances.decrease_exact (al : AllowDict) (account delegate : String)
    (amount : Int) (hwf : allowWF al) (hamt : 0 ≤ amount)
    (hle : amount ≤ allowGetOneD al account delegate)
    (hne : allowGetOneD al account delegate ≠ 0) :
    (Allowances.decrease true al account delegate amount).2
        = Except.ok (allowGetOneD al account delegate - amount) ∧
    allowGetOneD (Allowances.decrease true al account delegate amount).1
        account delegate = allowGetOneD al account delegate - amount := by
  obtain ⟨inner, hin⟩ : ∃ inner, dictGet al account = some inner := by
    cases h : dictGet al account with
    | none =>
      exfalso
      apply hne
      simp [allowGetOneD, Allowances.get_all, dictGetD, dictGet, h]
    | some inner => exact ⟨inner, rfl⟩
  obtain ⟨v, hv⟩ : ∃ v, dictGet inner delegate = some v := by
    cases h : dictGet inner delegate with
    | none =>
      exfalso
      apply hne
      simp [allowGetOneD, Allowances.get_all, dictGetD, hin, h]
    | some v => exact ⟨v, rfl⟩
  have hval : allowGetOneD al account delegate = v := by
    simp [allowGetOneD, Allowances.get_all, dictGetD, hin, hv]
  rw [hval] at hle hne ⊢
  have hne0 : ¬ (amount < 0) := by omega
  have hgo : Allowances.get_one true al account delegate = Except.ok v := by
    simp [Allowances.get_one, Allowances.get_all, dictGetD, hin, hv]
  have hmax : max 0 (v - amount) = v - amount := max_eq_right (by omega)
  have hsetpos : ¬ (v - amount < 0) := by omega
  have hset : Allowances.set al account delegate (v - amount) =
      (dictSet al account (dictSet inner delegate (v - amount)), Except.ok ()) := by
    simp [Allowances.set, hin, hsetpos]
  have hkeyin : keysNodup inner :=
    hwf.2 (account, inner) (dictGet_eq_some_mem al account inner hin)
  have hg1 : dictGet (dictSet al account (dictSet inner delegate (v - amount)))
      account = some (dictSet inner delegate (v - amount)) :=
    dictGet_set_self _ _ _
  have hg2 : dictGet (dictSet inner delegate (v - amount)) delegate
      = some (v - amount) := dictGet_set_self _ _ _
  by_cases hna : v - amount = 0
  · -- the new allowance is 0: the delegate entry is deleted, and the account
    -- entry too when no other delegation remains
    have hb0 : ((v - amount) == 0) = true := by simp [hna]
    have hdel1 : delete_entry_if_falsy (fun x => x == 0)
        (dictSet inner delegate (v - amount)) delegate =
        (dictDel (dictSet inner delegate (v - amount)) delegate, Except.ok ()) := by
      simp [delete_entry_if_falsy, hg2, hb0]
    have hkeyin1 : keysNodup (dictSet inner delegate (v - amount)) :=
      keysNodup_dictSet inner delegate (v - amount) hkeyin
    have hg3 : dictGet (dictSet (dictSet al account (dictSet inner delegate (v - amount)))
        account (dictDel (dictSet inner delegate (v - amount)) delegate)) account
        = some (dictDel (dictSet inner delegate (v - amount)) delegate) :=
      dictGet_set_self _ _ _
    by_cases hB : dictDel (dictSet inner delegate (v - amount)) delegate = []
    · have hie : (dictDel (dictSet inner delegate (v - amount)) delegate).isEmpty
          = true := by rw [hB]; rfl
      have hdel2 : delete_entry_if_falsy (fun m => m.isEmpty)
          (dictSet (dictSet al account (dictSet inner delegate (v - amount)))
            account (dictDel (dictSet inner delegate (v - amount)) delegate)) account =
          (dictDel (dictSet (dictSet al account (dictSet inner delegate (v - amount)))
            account (dictDel (dictSet inner delegate (v - amount)) delegate)) account,
           Except.ok ()) := by
        simp [delete_entry_if_falsy, hg3, hie]
      have hpost : Allowances.post_decrease
          (dictSet al account (dictSet inner delegate (v - amount))) account delegate =
          (dictDel (dictSet (dictSet al account (dictSet inner delegate (v - amount)))
            account (dictDel (dictSet inner delegate (v - amount)) delegate)) account,
           Except.ok ()) := by
        simp [Allowances.post_decrease, hg1, hdel1, hdel2]
      have hdec : Allowances.decrease true al account delegate amount =
          (dictDel (dictSet (dictSet al account (dictSet inner delegate (v - amount)))
            account (dictDel (dictSet inner delegate (v - amount)) delegate)) account,
           Except.ok (v - amount)) := by
        simp [Allowances.decrease, hne0, hgo, hmax, hset, hpost]
      have hkeyal2 : keysNodup
          (dictSet (dictSet al account (dictSet inner delegate (v - amount)))
            account (dictDel (dictSet inner delegate (v - amount)) delegate)) :=
        keysNodup_dictSet _ _ _ (keysNodup_dictSet _ _ _ hwf.1)
      have hnone : dictGet
          (dictDel (dictSet (dictSet al account (dictSet inner delegate (v - amount)))
            account (dictDel (dictSet inner delegate (v - amount)) delegate)) account)
          account = none := dictGet_del_self _ _ hkeyal2
      rw [hdec]
      refine ⟨rfl, ?_⟩
      simp [allowGetOneD, Allowances.get_all, dictGetD, dictGet, hnone]
      omega
    · have hie : (dictDel (dictSet inner delegate (v - amount)) delegate).isEmpty
          = false := isEmpty_false_of_ne_nil _ hB
      have hdel2 : delete_entry_if_falsy (fun m => m.isEmpty)
          (dictSet (dictSet al account (dictSet inner delegate (v - amount)))
            account (dictDel (dictSet inner delegate (v - amount)) delegate)) account =
          (dictSet (dictSet al account (dictSet inner delegate (v - amount)))
            account (dictDel (dictSet inner delegate (v - amount)) delegate),
           Except.ok ()) := by
        simp [delete_entry_if_falsy, hg3, hie]
      have hpost : Allowances.post_decrease
          (dictSet al account (dictSet inner delegate (v - amount))) account delegate =
          (dictSet (dictSet al account (dictSet inner delegate (v - amount)))
            account (dictDel (dictSet inner delegate (v - amount)) delegate),
           Except.ok ()) := by
        simp [Allowances.post_decrease, hg1, hdel1, hdel2]
      have hdec : Allowances.decrease true al account delegate amount =
          (dictSet (dictSet al account (dictSet inner delegate (v - amount)))
            account (dictDel (dictSet inner delegate (v - amount)) delegate),
           Except.ok (v - amount)) := by
        simp [Allowances.decrease, hne0, hgo, hmax, hset, hpost]
      have hnone2 : dictGet (dictDel (dictSet inner delegate (v - amount)) delegate)
          delegate = none := dictGet_del_self _ _ hkeyin1
      rw [hdec]
      refine ⟨rfl, ?_⟩
      simp [allowGetOneD, Allowances.get_all, dictGetD, hg3, hnone2]
      omega
  · -- the new allowance is nonzero: no cleanup happens
    have hb0 : ((v - amount) == 0) = false := by simp [hna]
    have hdel1 : delete_entry_if_falsy (fun x => x == 0)
        (dictSet inner delegate (v - amount)) delegate =
        (dictSet inner delegate (v - amount), Except.ok ()) := by
      simp [delete_entry_if_falsy, hg2, hb0]
    have hg3 : dictGet (dictSet (dictSet al account (dictSet inner delegate (v - amount)))
        account (dictSet inner delegate (v - amount))) account
        = some (dictSet inner delegate (v - amount)) := dictGet_set_self _ _ _
    have hie : (dictSet inner delegate (v - amount)).isEmpty = false :=
      isEmpty_false_of_ne_nil _ (dictSet_ne_nil _ _ _)
    have hdel2 : delete_entry_if_falsy (fun m => m.isEmpty)
        (dictSet (dictSet al account (dictSet inner delegate (v - amount)))
          account (dictSet inner delegate (v - amount))) account =
        (dictSet (dictSet al account (dictSet inner delegate (v - amount)))
          account (dictSet inner delegate (v - amount)),
         Except.ok ()) := by
      simp [delete_entry_if_falsy, hg3, hie]
    have hpost : Allowances.post_decrease
        (dictSet al account (dictSet inner delegate (v - amount))) account delegate =
        (dictSet (dictSet al account (dictSet inner delegate (v - amount)))
          account (dictSet inner delegate (v - amount)),
         Except.ok ()) := by
      simp [Allowances.post_decrease, hg1, hdel1, hdel2]
    have hdec : Allowances.decrease true al account delegate amount =
        (dictSet (dictSet al account (dictSet inner delegate (v - amount)))
          account (dictSet inner delegate (v - amount)),
         Except.ok (v - amount)) := by
      simp [Allowances.decrease, hne0, hgo, hmax, hset, hpost]
    rw [hdec]
    refine ⟨rfl, ?_⟩
    simp [allowGetOneD, Allowances.get_all, dictGetD, hg3, hg2]

/-- Claim C1: the claim says Allowances.set stores the entry unconditionally,
creating the nested mapping for an absent account, so that approve(A, D, 40)
on an empty allowance mapping yields get_one(A, D) = 40.  The code instead
writes into the fresh dict returned by allowances.get(account, {}), so the
write is discarded: starting from the empty mapping, approve returns True but
the mapping stays empty and get_one(A, D) is 0. -/
theorem spec_c1_approve_eval :
    base.approve ([] : AllowDict) "A" "D" 40 = ([], Except.ok true) ∧
    Allowances.get_one true ([] : AllowDict) "A" "D" = Except.ok 0 :=
  ⟨rfl, rfl⟩

/-- Claim C2: the scoped spend used by transfer_from and burn_from checks the
allowance on entry (an entry failure propagates with the allowance mapping
untouched), propagates any failure of the wrapped body with the allowance
mapping untouched, and on success of the body decreases the allowance of the
delegate on the account by exactly the spent amount. -/
theorem spec_c2_transaction {σ ρ : Type} (al : AllowDict)
    (account delegate : String) (amount : Int) (s0 : σ)
    (body : σ → σ × Except Err ρ) :
    (∀ e, Allowances.require true false al account delegate amount
        = Except.error e →
      Allowances.transaction true false al account delegate amount s0 body
        = ((s0, al), Except.error e)) ∧
    (∀ s1 e, Allowances.require true false al account delegate amount
        = Except.ok () →
      body s0 = (s1, Except.error e) →
      Allowances.transaction true false al account delegate amount s0 body
        = ((s1, al), Except.error e)) ∧
    (∀ s1 r, Allowances.require true false al account delegate amount
        = Except.ok () →
      body s0 = (s1, Except.ok r) → 0 ≤ amount → allowWF al →
      (Allowances.transaction true false al account delegate amount s0 body).2
          = Except.ok r ∧
      (Allowances.transaction true false al account delegate amount s0 body).1.1
          = s1 ∧
      allowGetOneD
          (Allowances.transaction true false al account delegate amount s0 body).1.2
          account delegate
        = allowGetOneD al account delegate - amount) := by
  refine ⟨?_, ?_, ?_⟩
  · intro e he
    unfold Allowances.transaction
    rw [he]
  · intro s1 e hr hb
    unfold Allowances.transaction
    rw [hr, hb]
  · intro s1 r hr hb hamt hwf
    obtain ⟨hne, hle⟩ := Allowances.require_ok_inv al account delegate amount hr
    obtain ⟨hd2, hd1⟩ :=
      Allowances.decrease_exact al account delegate amount hwf hamt hle hne
    have htr : Allowances.transaction true false al account delegate amount s0 body
        = ((s1, (Allowances.decrease true al account delegate amount).1),
           Except.ok r) := by
      unfold Allowances.transaction
      rw [hr, hb]
      rcases hdec : Allowances.decrease true al account delegate amount with ⟨al1, r2⟩
      rw [hdec] at hd2
      cases r2 with
      | error e => simp at hd2
      | ok x => rfl
    rw [htr]
    exact ⟨rfl, rfl, hd1⟩

theorem spec_c2_transaction_witness :
    (Allowances.transaction true false [("A", [("D", (40 : Int))])] "A" "D" 30
        [("A", (100 : Int))] (fun x => base.transfer x "A" "B" 30)).2
      = Except.ok true ∧
    (Allowances.transaction true false [("A", [("D", (40 : Int))])] "A" "D" 30
        [("A", (100 : Int))] (fun x => base.transfer x "A" "B" 30)).1.1
      = [("A", 70), ("B", 30)] ∧
    allowGetOneD
        (Allowances.transaction true false [("A", [("D", (40 : Int))])] "A" "D" 30
          [("A", (100 : Int))] (fun x => base.transfer x "A" "B" 30)).1.2 "A" "D"
      = allowGetOneD [("A", [("D", (40 : Int))])] "A" "D" - 30 :=
  (spec_c2_transaction [("A", [("D", (40 : Int))])] "A" "D" 30
      [("A", (100 : Int))] (fun x => base.transfer x "A" "B" 30)).2.2
    [("A", 70), ("B", 30)] true rfl rfl (by decide) (by decide)

/-- Claim C3: starting from ledgers whose stored balances and allowances are
all nonnegative, none of the operations -- deposit, withdraw, set, increase,
decrease, update, transfer, mint, burn, approve, update_approve,
transfer_from, burn_from -- leaves any stored balance or allowance entry
below 0, whether it succeeds or fails. -/
theorem spec_c3_nonneg :
    (∀ b account amount, balNonneg b →
      balNonneg (Balances.deposit b account amount).1) ∧
    (∀ pol b account amount, balNonneg b →
      balNonneg (Balances.withdraw pol b account amount).1) ∧
    (∀ al account delegate amount, allowNonneg al →
      allowNonneg (Allowances.set al account delegate amount).1) ∧
    (∀ pol al account delegate amount, allowNonneg al →
      allowNonneg (Allowances.increase pol al account delegate amount).1) ∧
    (∀ pol al account delegate amount, allowNonneg al →
      allowNonneg (Allowances.decrease pol al account delegate amount).1) ∧
    (∀ pol al account delegate amount, allowNonneg al →
      allowNonneg (Allowances.update pol al account delegate amount).1) ∧
    (∀ b sender to_address amount, balNonneg b →
      balNonneg (base.transfer b sender to_address amount).1) ∧
    (∀ b total_supply account amount, balNonneg b →
      balNonneg (base.mint b total_supply account amount).1) ∧
    (∀ b total_supply account amount, balNonneg b →
      balNonneg (base.burn b total_supply account amount).1) ∧
    (∀ al account delegate amount, allowNonneg al →
      allowNonneg (base.approve al account delegate amount).1) ∧
    (∀ al account delegate delta_amount, allowNonneg al →
      allowNonneg (base.update_approve al account delegate delta_amount).1) ∧
    (∀ b al delegate from_address to_address amount,
      balNonneg b → allowNonneg al →
      balNonneg (base.transfer_from b al delegate from_address to_address amount).1.1 ∧
      allowNonneg
        (base.transfer_from b al delegate from_address to_address amount).1.2) ∧
    (∀ b al total_supply delegate from_address amount,
      balNonneg b → allowNonneg al →
      balNonneg (base.burn_from b al total_supply delegate from_address amount).1.1 ∧
      allowNonneg
        (base.burn_from b al total_supply delegate from_address amount).1.2) :=
  ⟨balNonneg_deposit, balNonneg_withdraw, allowNonneg_set, allowNonneg_increase,
   allowNonneg_decrease, allowNonneg_update, balNonneg_transfer, balNonneg_mint,
   balNonneg_burn, allowNonneg_approve, allowNonneg_update_approve,
   nonneg_transfer_from, nonneg_burn_from⟩

theorem spec_c3_nonneg_witness :
    balNonneg (Balances.deposit [("A", (3 : Int))] "A" 5).1 ∧
    balNonneg (Balances.withdraw true [("A", (3 : Int))] "A" 3).1 ∧
    allowNonneg (Allowances.set [("A", [("D", (7 : Int))])] "A" "D" 9).1 ∧
    balNonneg (base.transfer_from [("A", (100 : Int))] [("A", [("D", (40 : Int))])]
        "D" "A" "B" 30).1.1 ∧
    allowNonneg (base.transfer_from [("A", (100 : Int))] [("A", [("D", (40 : Int))])]
        "D" "A" "B" 30).1.2 :=
  ⟨spec_c3_nonneg.1 [("A", (3 : Int))] "A" 5 (by decide),
   spec_c3_nonneg.2.1 true [("A", (3 : Int))] "A" 3 (by decide),
   spec_c3_nonneg.2.2.1 [("A", [("D", (7 : Int))])] "A" "D" 9 (by decide),
   (spec_c3_nonneg.2.2.2.2.2.2.2.2.2.2.2.1 [("A", (100 : Int))]
     [("A", [("D", (40 : Int))])] "D" "A" "B" 30 (by decide) (by decide)).1,
   (spec_c3_nonneg.2.2.2.2.2.2.2.2.2.2.2.1 [("A", (100 : Int))]
     [("A", [("D", (40 : Int))])] "D" "A" "B" 30 (by decide) (by decide)).2⟩

/-- Claim C4: for any sequence of transfer and transfer_from calls (no
mint/burn), starting from any balance and allowance mapping, the sum of all
stored balance values is unchanged, counting successful and failed calls
alike. -/
theorem spec_c4_conservation (calls : List LedgerCall) (b : BalDict)
    (al : AllowDict) : dsum (runCalls (b, al) calls).1 = dsum b := by
  induction calls generalizing b al with
  | nil => rfl
  | cons c rest ih =>
    have step : dsum (runCall (b, al) c).1 = dsum b := by
      cases c with
      | transferCall s t amt => exact dsum_transfer b s t amt
      | transferFromCall d f t amt => exact dsum_transfer_from b al d f t amt
    show dsum (runCalls (runCall (b, al) c) rest).1 = dsum b
    rcases hrc : runCall (b, al) c with ⟨b1, al1⟩
    rw [hrc] at step
    rw [ih b1 al1]
    exact step

/-- Claim C5: the claim says transfer(A, B, 0) succeeds and changes no balance
value for every sender, including one with no balance entry.  In the code,
require passes for a missing sender (0 is not below 0) but the subsequent
self.balance[account] -= amount raises KeyError, an error outside the defined
error kinds, so the claim fails on a sender with no entry. -/
theorem spec_c5_transfer_zero_eval :
    base.transfer ([] : BalDict) "A" "B" 0
      = ([], Except.error (Err.keyError "A")) :=
  rfl

/-- Claim C6: the claim says withdraw with amount >= 0 either fails with
insufficient funds (balance below amount) or succeeds, decreasing the stored
balance, removing a zero entry under the default policy while get still
reports 0.  The code matches this on present accounts (second and third
conjuncts show the {A: 100} scenario and get on the emptied mapping), but on
an absent account with amount 0 the balance (0) is not below the amount yet
the code raises KeyError instead of succeeding (first conjunct). -/
theorem spec_c6_withdraw_eval :
    Balances.withdraw true ([] : BalDict) "A" 0
      = ([], Except.error (Err.keyError "A")) ∧
    Balances.withdraw true [("A", (100 : Int))] "A" 100 = ([], Except.ok 0) ∧
    Balances.get true ([] : BalDict) "A" = some 0 :=
  ⟨rfl, rfl, rfl⟩

/-- Claim C7 counterexample: starting from the empty allowance mapping,
approve(A, D, 50) followed by approve(A, D, 20) does not yield a stored
allowance of 20 for (A, D) -- both writes are discarded because the account
is absent, so no entry exists at all. -/
theorem spec_c7_counterexample :
    ¬ (dictGet (Allowances.get_all
        (base.approve (base.approve ([] : AllowDict) "A" "D" 50).1 "A" "D" 20).1
        "A") "D" = some 20) := by
  decide

/-- Claim C7 (amended): for every allowance mapping in which account A is
present (has a stored inner mapping), approve(A, D, 50) followed by
approve(A, D, 20) yields a stored allowance of 20 for (A, D) (replace),
whereas approve(A, D, 50) followed by update_approve(A, D, 20) returns 70 and
yields a stored allowance of 70 (accumulate). -/
theorem spec_c7_amended (al : AllowDict) (A D : String)
    (inner : List (String × Int)) (h : dictGet al A = some inner) :
    dictGet (Allowances.get_all
        (base.approve (base.approve al A D 50).1 A D 20).1 A) D = some 20 ∧
    (base.update_approve (base.approve al A D 50).1 A D 20).2 = Except.ok 70 ∧
    dictGet (Allowances.get_all
        (base.update_approve (base.approve al A D 50).1 A D 20).1 A) D
      = some 70 := by
  have h50 : ¬ ((50 : Int) < 0) := by omega
  have h20 : ¬ ((20 : Int) < 0) := by omega
  have hap1 : base.approve al A D 50
      = (dictSet al A (dictSet inner D 50), Except.ok true) := by
    simp [base.approve, Allowances.set, h, h50]
  have hg1 : dictGet (dictSet al A (dictSet inner D 50)) A
      = some (dictSet inner D 50) := dictGet_set_self _ _ _
  have hg2 : dictGet (dictSet inner D 50) D = some (50 : Int) :=
    dictGet_set_self _ _ _
  have hap2 : base.approve (dictSet al A (dictSet inner D 50)) A D 20
      = (dictSet (dictSet al A (dictSet inner D 50)) A
          (dictSet (dictSet inner D 50) D 20), Except.ok true) := by
    simp [base.approve, Allowances.set, hg1, h20]
  have hgo : Allowances.get_one true (dictSet al A (dictSet inner D 50)) A D
      = Except.ok 50 := by
    simp [Allowances.get_one, Allowances.get_all, dictGetD, hg1, hg2]
  have h70 : ¬ ((70 : Int) < 0) := by omega
  have hset70 : Allowances.set (dictSet al A (dictSet inner D 50)) A D 70
      = (dictSet (dictSet al A (dictSet inner D 50)) A
          (dictSet (dictSet inner D 50) D 70), Except.ok ()) := by
    simp [Allowances.set, hg1, h70]
  have hge20 : (20 : Int) ≥ 0 := by omega
  have hupd : base.update_approve (dictSet al A (dictSet inner D 50)) A D 20
      = (dictSet (dictSet al A (dictSet inner D 50)) A
          (dictSet (dictSet inner D 50) D 70), Except.ok 70) := by
    simp [base.update_approve, Allowances.update, Allowances.increase, hge20,
      h20, hgo, hset70]
  refine ⟨?_, ?_, ?_⟩
  · simp [hap1, hap2, Allowances.get_all, dictGetD, dictGet_set_self]
  · simp [hap1, hupd]
  · simp [hap1, hupd, Allowances.get_all, dictGetD, dictGet_set_self]

theorem spec_c7_amended_witness :
    dictGet (Allowances.get_all
        (base.approve (base.approve [("A", [("E", (7 : Int))])] "A" "D" 50).1
          "A" "D" 20).1 "A") "D" = some 20 ∧
    (base.update_approve
        (base.approve [("A", [("E", (7 : Int))])] "A" "D" 50).1 "A" "D" 20).2
      = Except.ok 70 ∧
    dictGet (Allowances.get_all
        (base.update_approve
          (base.approve [("A", [("E", (7 : Int))])] "A" "D" 50).1 "A" "D" 20).1
        "A") "D" = some 70 :=
  spec_c7_amended [("A", [("E", (7 : Int))])] "A" "D" [("E", (7 : Int))] rfl

/-- Claim C8: the claim says re-registering an already registered event name
replaces the previous definition: register returns normally, the new callable
is installed, and the old callable becomes uncallable.  In the code,
unregister removes the old id from the id set and then calls
_registered_events.remove(event) with the callable on the set of names, which
raises KeyError out of register: the second register raises (first conjunct),
the globals still hold the old callable (second conjunct) -- only the old
callable has indeed become uncallable (third conjunct). -/
theorem spec_c8_register_eval :
    (events.register (events.register emptyEventsState "ev" ["a"]).1 "ev" ["a"]).2
      = Except.error (Err.keyError "ev") ∧
    (events.register (events.register emptyEventsState "ev" ["a"]).1 "ev" ["a"]).1.eventGlobals
      = [("ev", ⟨0, "ev", ["a"]⟩)] ∧
    events.callEvent
        (events.register (events.register emptyEventsState "ev" ["a"]).1 "ev" ["a"]).1
        ⟨0, "ev", ["a"]⟩ ["a"]
      = Except.error (Err.lookupError "ev") :=
  ⟨rfl, rfl, rfl⟩

/-- Claim C9: the claim says that with missingMeansZero = False, get_one
returns the None sentinel for absent entries.  In the code the constructor's
non-default branch assigns _default_balance instead of _default_allowance, so
get_one raises AttributeError on every call in that configuration. -/
theorem spec_c9_get_one_eval :
    Allowances.get_one false ([] : AllowDict) "A" "D"
      = Except.error (Err.attributeError "_default_allowance") ∧
    Allowances.get_one false [("A", [("D", (5 : Int))])] "A" "D"
      = Except.error (Err.attributeError "_default_allowance") :=
  ⟨rfl, rfl⟩

/-- Claim C10: frame property of transfer -- after a successful
transfer(sender, to_address, amount), every account other than the sender and
the recipient has exactly the same entry (same stored value, or same absence)
as before. -/
theorem spec_c10_frame (b : BalDict) (sender to_address c : String)
    (amount : Int) (r : Bool)
    (hok : (base.transfer b sender to_address amount).2 = Except.ok r)
    (hcs : c ≠ sender) (hct : c ≠ to_address) :
    dictGet (base.transfer b sender to_address amount).1 c = dictGet b c :=
  transfer_getOther b sender to_address c amount hcs hct

theorem spec_c10_frame_witness :
    dictGet (base.transfer [("A", (100 : Int)), ("C", 5)] "A" "B" 30).1 "C"
      = dictGet [("A", (100 : Int)), ("C", 5)] "C" :=
  spec_c10_frame [("A", (100 : Int)), ("C", 5)] "A" "B" "C" 30 true rfl
    (by decide) (by decide)
